import Mathlib

/-
Verification of the retry core of the httpretrier package.

The embedding models Go int64 durations as unbounded Int together with an
explicit two's-complement wrap (int64Wrap) at the arithmetic operations that
can overflow in the source (the shift/multiply in ExponentialBackoff and the
addition in JitterBackoff).  The retry transport loop (retryTransport.RoundTrip
in httpretrier.go) is modelled as a fuel-indexed recursion over an oracle
`send : Nat -> SendResult` describing the outcome of each physical send of the
wrapped transport, an oracle for per-attempt GetBody outcomes, and per-response
drain/close outcomes.  The result records the number of physical sends, the
list of delay waits, the attempt indices whose response bodies were
drained-and-closed, and the final outcome.
-/

/-- Two's-complement wrap-around of Go int64 arithmetic:
9223372036854775808 = 2^63 and 18446744073709551616 = 2^64. -/
def int64Wrap (x : Int) : Int :=
  (x + 9223372036854775808) % 18446744073709551616 - 9223372036854775808

/-- Go's truncated (toward zero) division by 2, used for `baseDelay / 2`
in JitterBackoff. -/
def tdiv2 (x : Int) : Int :=
  if 0 ≤ x then x / 2 else -((-x) / 2)

/-- ExponentialBackoff from httpretrier.go.  The Go expression
`base * (1 << uint(attempt))` is int64 arithmetic: `1 << uint(attempt)`
equals the int64 wrap of 2^attempt (it is 2^attempt for attempt < 63,
the minimal int64 for attempt = 63, and 0 for attempt >= 64), and the
product wraps as well. -/
def exponentialBackoff (base maxDelay : Int) (attempt : Nat) : Int :=
  if attempt = 0 ∧ maxDelay < base then base
  else if maxDelay < int64Wrap (base * int64Wrap ((2 : Int) ^ attempt)) ∨
          int64Wrap (base * int64Wrap ((2 : Int) ^ attempt)) ≤ 0 then maxDelay
  else int64Wrap (base * int64Wrap ((2 : Int) ^ attempt))

/-- FixedDelay from httpretrier.go: a constant delay for every attempt. -/
def fixedDelay (delay : Int) (_attempt : Nat) : Int := delay

/-- JitterBackoff from httpretrier.go, with the random draw of
`rand.Int63n(int64(baseDelay / 2))` made an explicit argument.  The Go
addition `baseDelay + jitter` is int64 addition and wraps. -/
def jitterBackoff (base maxDelay : Int) (attempt : Nat) (draw : Int) : Int :=
  int64Wrap (exponentialBackoff base maxDelay attempt + draw)

/-- The computation ExponentialBackoff is specified to perform (spec 4.1):
min(base * 2^attempt, cap) on the computed int64 value, except that when
base > cap attempt 0 returns base, and a computed value that has become
non-positive is replaced by cap. -/
def specExponentialBackoff (base maxDelay : Int) (attempt : Nat) : Int :=
  if attempt = 0 ∧ maxDelay < base then base
  else if int64Wrap (base * int64Wrap ((2 : Int) ^ attempt)) ≤ 0 then maxDelay
  else min (int64Wrap (base * int64Wrap ((2 : Int) ^ attempt))) maxDelay

/-- An opaque error value (a Go `error`), distinguished by a tag. -/
structure GoErr where
  tag : Nat
deriving DecidableEq

/-- An HTTP response as far as the retry loop observes it: its status code
and the outcomes of draining (io.Copy to io.Discard) and closing its body. -/
structure Response where
  statusCode : Int
  drainErr : Option GoErr
  closeErr : Option GoErr
deriving DecidableEq

/-- Outcome of one physical send on the wrapped transport: either a
transport-level error (with nil response) or a response. -/
inductive SendResult where
  | fail (e : GoErr)
  | ok (resp : Response)
deriving DecidableEq

/-- The request as the retry loop observes it: whether Body and GetBody are
non-nil, and the outcome of calling GetBody on each attempt. -/
structure Request where
  hasBody : Bool
  hasGetBody : Bool
  getBodyErr : Nat → Option GoErr

/-- The retryTransport configuration: MaxRetries and the resolved
RetryStrategy.  The wrapped transport is modelled by the send oracle given
to roundTrip. -/
structure RetryTransport where
  maxRetries : Int
  strategy : Nat → Int

/-- The distinct terminal errors RoundTrip can produce. -/
inductive RTError where
  | bodyReplay (e : GoErr)
  | drainFail (e : GoErr)
  | closeFail (e : GoErr)
  | lastErr (e : GoErr)
  | exhaustedWithStatus (code : Int)
  | exhaustedGeneric
deriving DecidableEq

/-- Final outcome of RoundTrip: a returned response or a terminal error. -/
inductive RTOutcome where
  | success (resp : Response)
  | failure (e : RTError)
deriving DecidableEq

/-- Observable trace of one RoundTrip call: number of physical sends, the
delay waits in order, the attempt indices whose responses were
drained-and-closed, and the outcome. -/
structure RTResult where
  sends : Nat
  delays : List Int
  cleanups : List Nat
  outcome : RTOutcome
deriving DecidableEq

/-- The per-attempt body-replay step: when Body and GetBody are both
non-nil the loop calls GetBody, whose outcome this returns; otherwise the
replay is skipped (no outcome). -/
def bodySetupErr (req : Request) (attempt : Nat) : Option GoErr :=
  if req.hasBody && req.hasGetBody then req.getBodyErr attempt else none

/-- The retry loop of retryTransport.RoundTrip.  `fuel` counts the remaining
loop iterations: the Go loop `for attempt := 0; attempt <= r.MaxRetries`
admits attempt while attempt <= MaxRetries, so iteration `attempt` runs with
fuel (MaxRetries + 1 - attempt) > 0, and fuel 0 corresponds to the loop
condition failing (the fall-through `return nil, ErrAllRetriesFailed`). -/
def rtLoop (mr : Int) (strat : Nat → Int) (req : Request) (send : Nat → SendResult) :
    Nat → Nat → RTResult
  | _, 0 => ⟨0, [], [], .failure .exhaustedGeneric⟩
  | attempt, fuel + 1 =>
    match bodySetupErr req attempt with
    | some e => ⟨0, [], [], .failure (.bodyReplay e)⟩
    | none =>
      match send attempt with
      | .fail e =>
        if (attempt : Int) < mr then
          let rest := rtLoop mr strat req send (attempt + 1) fuel
          ⟨rest.sends + 1, strat attempt :: rest.delays, rest.cleanups, rest.outcome⟩
        else
          ⟨1, [], [], .failure (.lastErr e)⟩
      | .ok resp =>
        if resp.statusCode < 500 then
          ⟨1, [], [], .success resp⟩
        else
          match resp.drainErr with
          | some e => ⟨1, [], [attempt], .failure (.drainFail e)⟩
          | none =>
            match resp.closeErr with
            | some e => ⟨1, [], [attempt], .failure (.closeFail e)⟩
            | none =>
              if (attempt : Int) < mr then
                let rest := rtLoop mr strat req send (attempt + 1) fuel
                ⟨rest.sends + 1, strat attempt :: rest.delays,
                  attempt :: rest.cleanups, rest.outcome⟩
              else
                ⟨1, [], [attempt], .failure (.exhaustedWithStatus resp.statusCode)⟩

/-- retryTransport.RoundTrip: run the retry loop from attempt 0 with
MaxRetries + 1 available iterations (none when MaxRetries is negative). -/
def roundTrip (rt : RetryTransport) (req : Request) (send : Nat → SendResult) : RTResult :=
  rtLoop rt.maxRetries rt.strategy req send 0 (rt.maxRetries + 1).toNat

/-- A send outcome the loop treats as retryable and whose cleanup succeeds:
a transport-level error, or a response with status >= 500 whose body drains
and closes without error. -/
def retryableClean : SendResult → Prop
  | .fail _ => True
  | .ok r => 500 ≤ r.statusCode ∧ r.drainErr = none ∧ r.closeErr = none

instance : (s : SendResult) → Decidable (retryableClean s)
  | .fail _ => .isTrue True.intro
  | .ok _ => inferInstanceAs (Decidable (_ ∧ _ ∧ _))

/-- Whether the send at index i produced a response the loop must discard
(status >= 500), i.e. a response owed a drain-and-close. -/
def discarded (send : Nat → SendResult) (i : Nat) : Bool :=
  match send i with
  | .ok r => decide (500 ≤ r.statusCode)
  | .fail _ => false

/-- A value already in int64 range is unchanged by the wrap. -/
lemma int64Wrap_eq_self (x : Int) (h1 : -9223372036854775808 ≤ x)
    (h2 : x < 9223372036854775808) : int64Wrap x = x := by
  unfold int64Wrap
  omega

/-- When the doubled product base * 2^(attempt+1) fits in int64, every wrap in
the exponential-backoff computation at attempts `a` and `a+1` is the identity. -/
lemma wrap_prod_eq (base : Int) (a : Nat)
    (h1 : -9223372036854775808 < base * 2 ^ (a + 1))
    (h2 : base * 2 ^ (a + 1) < 9223372036854775808) :
    int64Wrap (base * int64Wrap ((2 : Int) ^ a)) = base * 2 ^ a ∧
    int64Wrap (base * int64Wrap ((2 : Int) ^ (a + 1))) = base * 2 ^ (a + 1) := by
  rcases eq_or_ne base 0 with hb | hb
  · subst hb
    norm_num [int64Wrap]
  · have hpa : (0 : Int) < 2 ^ a := pow_pos (by norm_num) a
    have hpa1 : (0 : Int) < 2 ^ (a + 1) := pow_pos (by norm_num) (a + 1)
    have hble : (1 : Int) ≤ |base| := Int.one_le_abs hb
    have habs : |base * 2 ^ (a + 1)| < 9223372036854775808 := abs_lt.mpr ⟨h1, h2⟩
    have habs_eq : |base * 2 ^ (a + 1)| = |base| * 2 ^ (a + 1) := by
      rw [abs_mul, abs_of_pos hpa1]
    have hp1lt : (2 : Int) ^ (a + 1) < 9223372036854775808 := by
      calc (2 : Int) ^ (a + 1) = 1 * 2 ^ (a + 1) := (one_mul _).symm
        _ ≤ |base| * 2 ^ (a + 1) := mul_le_mul_of_nonneg_right hble (le_of_lt hpa1)
        _ = |base * 2 ^ (a + 1)| := habs_eq.symm
        _ < 9223372036854775808 := habs
    have hstep : (2 : Int) ^ a ≤ 2 ^ (a + 1) := by
      have h2' : (2 : Int) ^ (a + 1) = 2 ^ a * 2 := by ring
      rw [h2']
      linarith
    have hwa : int64Wrap ((2 : Int) ^ a) = 2 ^ a :=
      int64Wrap_eq_self _ (by linarith) (by linarith)
    have hwa1 : int64Wrap ((2 : Int) ^ (a + 1)) = 2 ^ (a + 1) :=
      int64Wrap_eq_self _ (by linarith) hp1lt
    rw [hwa, hwa1]
    have hdbl : base * 2 ^ (a + 1) = 2 * (base * 2 ^ a) := by ring
    have houter0 : int64Wrap (base * 2 ^ a) = base * 2 ^ a := by
      rw [hdbl] at h1 h2
      exact int64Wrap_eq_self _ (by linarith) (by linarith)
    exact ⟨houter0, int64Wrap_eq_self _ (le_of_lt h1) h2⟩

/-- C4: ExponentialBackoff computes min(base * 2^attempt, cap) on the int64
value, except that attempt 0 with base > cap returns base, and a computed
value that has wrapped to a non-positive duration is replaced by cap; and for
base > cap every attempt >= 1 returns a value <= cap. -/
theorem exponentialBackoff_matches_spec (base maxDelay : Int) (attempt : Nat) :
    exponentialBackoff base maxDelay attempt = specExponentialBackoff base maxDelay attempt ∧
    (maxDelay < base → 1 ≤ attempt → exponentialBackoff base maxDelay attempt ≤ maxDelay) := by
  constructor
  · unfold exponentialBackoff specExponentialBackoff
    set d := int64Wrap (base * int64Wrap ((2 : Int) ^ attempt)) with hd
    rw [min_def]
    split_ifs <;> omega
  · intro hlt ha
    unfold exponentialBackoff
    set d := int64Wrap (base * int64Wrap ((2 : Int) ^ attempt)) with hd
    split_ifs <;> omega

/-- Witness for C4: base 500 above cap 100, attempt 1 stays below the cap. -/
theorem exponentialBackoff_matches_spec_witness :
    exponentialBackoff 500 100 1 ≤ 100 :=
  (exponentialBackoff_matches_spec 500 100 1).2 (by decide) (by decide)

/-- C5 fails as stated: with base = 2^62 + 1 <= cap = 2^63 - 1 the delay
saturates at the cap at attempt 1, but at attempt 2 the int64 product wraps
around to 4, which the code returns because it is positive and below the cap,
so the delay sequence decreases after saturating. -/
theorem exponentialBackoff_monotone_cex :
    (4611686018427387905 : Int) ≤ 9223372036854775807 ∧
    exponentialBackoff 4611686018427387905 9223372036854775807 1 = 9223372036854775807 ∧
    exponentialBackoff 4611686018427387905 9223372036854775807 2 = 4 ∧
    exponentialBackoff 4611686018427387905 9223372036854775807 2
      < exponentialBackoff 4611686018427387905 9223372036854775807 1 := by
  decide

/-- C5 (amended): for base <= cap the exponential delay never exceeds cap,
and it is non-decreasing at every step whose doubled product still fits in
int64 (without that proviso the wrap can break monotonicity). -/
theorem exponentialBackoff_bounded_monotone (base maxDelay : Int) (h : base ≤ maxDelay)
    (attempt : Nat) :
    exponentialBackoff base maxDelay attempt ≤ maxDelay ∧
    (-9223372036854775808 < base * 2 ^ (attempt + 1) →
      base * 2 ^ (attempt + 1) < 9223372036854775808 →
      exponentialBackoff base maxDelay attempt ≤ exponentialBackoff base maxDelay (attempt + 1)) := by
  constructor
  · unfold exponentialBackoff
    set d := int64Wrap (base * int64Wrap ((2 : Int) ^ attempt)) with hd
    split_ifs <;> omega
  · intro h1 h2
    obtain ⟨hw0, hw1⟩ := wrap_prod_eq base attempt h1 h2
    unfold exponentialBackoff
    rw [hw0, hw1]
    have hdbl : base * 2 ^ (attempt + 1) = 2 * (base * 2 ^ attempt) := by ring
    rw [hdbl]
    set X := base * 2 ^ attempt with hX
    split_ifs <;> omega

/-- Witness for C5 (amended) at base 1, cap 100, attempts 0 and 1. -/
theorem exponentialBackoff_bounded_monotone_witness :
    exponentialBackoff 1 100 0 ≤ 100 ∧
    exponentialBackoff 1 100 0 ≤ exponentialBackoff 1 100 1 := by
  have h := exponentialBackoff_bounded_monotone 1 100 (by decide) 0
  exact ⟨h.1, h.2 (by decide) (by decide)⟩

/-- C6 fails as stated: at base = cap = 2^63 - 1 the exponential delay is
2^63 - 1, the draw 2^62 - 2 is inside the documented range
[0, expDelay / 2), yet the int64 addition wraps and the jittered delay falls
below the exponential delay (it is negative). -/
theorem jitterBackoff_range_cex :
    (0 : Int) ≤ 4611686018427387902 ∧
    (4611686018427387902 : Int)
      < tdiv2 (exponentialBackoff 9223372036854775807 9223372036854775807 0) ∧
    jitterBackoff 9223372036854775807 9223372036854775807 0 4611686018427387902
      < exponentialBackoff 9223372036854775807 9223372036854775807 0 := by
  decide

/-- C6 (amended): for a draw in [0, expDelay / 2) whose addition to the
exponential delay does not overflow int64, the jittered delay lies in
[expDelay, expDelay * 3 / 2): expDelay <= jitter and 2 * jitter < 3 * expDelay. -/
theorem jitterBackoff_range (base maxDelay : Int) (attempt : Nat) (draw : Int)
    (h0 : 0 ≤ draw)
    (h1 : draw < tdiv2 (exponentialBackoff base maxDelay attempt))
    (h2 : exponentialBackoff base maxDelay attempt + draw < 9223372036854775808) :
    exponentialBackoff base maxDelay attempt ≤ jitterBackoff base maxDelay attempt draw ∧
    2 * jitterBackoff base maxDelay attempt draw
      < 3 * exponentialBackoff base maxDelay attempt := by
  unfold jitterBackoff
  set e := exponentialBackoff base maxDelay attempt with he
  have key : 2 ≤ e ∧ 2 * draw < e := by
    unfold tdiv2 at h1
    split_ifs at h1 <;> omega
  rw [int64Wrap_eq_self (e + draw) (by omega) h2]
  omega

/-- Witness for C6 (amended): base 100, cap 1000, attempt 0, draw 10. -/
theorem jitterBackoff_range_witness :
    exponentialBackoff 100 1000 0 ≤ jitterBackoff 100 1000 0 10 ∧
    2 * jitterBackoff 100 1000 0 10 < 3 * exponentialBackoff 100 1000 0 :=
  jitterBackoff_range 100 1000 0 10 (by decide) (by decide) (by decide)

/-- C7 fails as stated: FixedDelay simply returns its argument, so a negative
constructor argument yields a negative delay. -/
theorem fixedDelay_negative_cex : fixedDelay (-1) 0 < 0 := by decide

/-- C7 (amended): with non-negative constructor durations (and, for jitter, a
non-negative draw whose addition to the exponential delay does not overflow
int64) all three strategies return a non-negative delay at every attempt. -/
theorem strategies_nonneg (d base maxDelay draw : Int) (attempt : Nat)
    (hd : 0 ≤ d) (hb : 0 ≤ base) (hc : 0 ≤ maxDelay) (hdr : 0 ≤ draw)
    (hov : exponentialBackoff base maxDelay attempt + draw < 9223372036854775808) :
    0 ≤ fixedDelay d attempt ∧ 0 ≤ exponentialBackoff base maxDelay attempt ∧
    0 ≤ jitterBackoff base maxDelay attempt draw := by
  have hexp : 0 ≤ exponentialBackoff base maxDelay attempt := by
    unfold exponentialBackoff
    set w := int64Wrap (base * int64Wrap ((2 : Int) ^ attempt)) with hw
    split_ifs <;> omega
  refine ⟨hd, hexp, ?_⟩
  unfold jitterBackoff
  rw [int64Wrap_eq_self (exponentialBackoff base maxDelay attempt + draw) (by omega) hov]
  omega

/-- Witness for C7 (amended) at concrete non-negative arguments. -/
theorem strategies_nonneg_witness :
    0 ≤ fixedDelay 5 2 ∧ 0 ≤ exponentialBackoff 100 1000 2 ∧
    0 ≤ jitterBackoff 100 1000 2 7 :=
  strategies_nonneg 5 100 1000 7 2 (by decide) (by decide) (by decide) (by decide) (by decide)

/-- Splitting a shifted range map at its head. -/
lemma range_map_shift {α : Type} (f : Nat → α) (attempt n : Nat) :
    (List.range (n + 1)).map (fun j => f (attempt + j))
      = f attempt :: (List.range n).map (fun j => f (attempt + 1 + j)) := by
  rw [List.range_succ_eq_map, List.map_cons, List.map_map]
  have h2 : ((fun j => f (attempt + j)) ∘ Nat.succ) = fun j => f (attempt + 1 + j) :=
    funext fun j => congrArg f (by omega)
  rw [h2, Nat.add_zero]

/-- Shifted range map of the indices themselves, split at its head. -/
lemma range_map_shift_nat (attempt n : Nat) :
    (List.range (n + 1)).map (fun j => attempt + j)
      = attempt :: (List.range n).map (fun j => attempt + 1 + j) := by
  rw [List.range_succ_eq_map, List.map_cons, List.map_map]
  have h2 : ((fun j => attempt + j) ∘ Nat.succ) = fun j => attempt + 1 + j :=
    funext fun j => by show attempt + (j + 1) = attempt + 1 + j; omega
  rw [h2, Nat.add_zero]

/-- If GetBody succeeds on this attempt, the body-replay step is a no-op
whether or not the request has the rewind capability. -/
lemma bodySetupErr_none (req : Request) (attempt : Nat)
    (hb0 : req.getBodyErr attempt = none) : bodySetupErr req attempt = none := by
  unfold bodySetupErr
  split <;> simp [hb0]

/-- If the rewind capability is present and GetBody fails, the body-replay
step surfaces the failure. -/
lemma bodySetupErr_some (req : Request) (attempt : Nat) (e : GoErr)
    (hb : req.hasBody = true) (hg : req.hasGetBody = true)
    (herr : req.getBodyErr attempt = some e) : bodySetupErr req attempt = some e := by
  unfold bodySetupErr
  simp [hb, hg, herr]

/-- One loop iteration on a retryable outcome with clean drains, below the
budget: it sends once, waits strategy(attempt), and continues at attempt+1. -/
lemma rtLoop_step (mr : Int) (strat : Nat → Int) (req : Request) (send : Nat → SendResult)
    (attempt fuel : Nat)
    (hb0 : req.getBodyErr attempt = none)
    (hr0 : retryableClean (send attempt))
    (hlt : (attempt : Int) < mr) :
    (rtLoop mr strat req send attempt (fuel + 1)).sends
        = (rtLoop mr strat req send (attempt + 1) fuel).sends + 1 ∧
    (rtLoop mr strat req send attempt (fuel + 1)).delays
        = strat attempt :: (rtLoop mr strat req send (attempt + 1) fuel).delays ∧
    (rtLoop mr strat req send attempt (fuel + 1)).outcome
        = (rtLoop mr strat req send (attempt + 1) fuel).outcome := by
  have hgb := bodySetupErr_none req attempt hb0
  cases hsend : send attempt with
  | fail e => simp [rtLoop, hgb, hsend, hlt]
  | ok r =>
    have hr0' : 500 ≤ r.statusCode ∧ r.drainErr = none ∧ r.closeErr = none := by
      rw [hsend] at hr0; exact hr0
    obtain ⟨h500, hdr, hcl⟩ := hr0'
    have hnlt : ¬ (r.statusCode < 500) := by omega
    simp [rtLoop, hgb, hsend, hlt, hnlt, hdr, hcl]

/-- The last budgeted iteration on a retryable outcome with clean drains:
one send, no wait, and the terminal error is the wrapped transport error or
the all-retries-failed error carrying the last status. -/
lemma rtLoop_last (mr : Int) (strat : Nat → Int) (req : Request) (send : Nat → SendResult)
    (attempt fuel : Nat)
    (hb0 : req.getBodyErr attempt = none)
    (hr0 : retryableClean (send attempt))
    (hmr : ¬ ((attempt : Int) < mr)) :
    (rtLoop mr strat req send attempt (fuel + 1)).sends = 1 ∧
    (rtLoop mr strat req send attempt (fuel + 1)).delays = [] ∧
    (rtLoop mr strat req send attempt (fuel + 1)).outcome
      = .failure (match send attempt with
          | .fail e => .lastErr e
          | .ok r => .exhaustedWithStatus r.statusCode) := by
  have hgb := bodySetupErr_none req attempt hb0
  cases hsend : send attempt with
  | fail e => simp [rtLoop, hgb, hsend, hmr]
  | ok r =>
    have hr0' : 500 ≤ r.statusCode ∧ r.drainErr = none ∧ r.closeErr = none := by
      rw [hsend] at hr0; exact hr0
    obtain ⟨h500, hdr, hcl⟩ := hr0'
    have hnlt : ¬ (r.statusCode < 500) := by omega
    simp [rtLoop, hgb, hsend, hmr, hnlt, hdr, hcl]

/-- An iteration whose send succeeds (status below 500) returns the response
at once: one send, no wait, no cleanup. -/
lemma rtLoop_success (mr : Int) (strat : Nat → Int) (req : Request) (send : Nat → SendResult)
    (attempt fuel : Nat) (r : Response)
    (hb0 : req.getBodyErr attempt = none)
    (hok : send attempt = .ok r) (hlt : r.statusCode < 500) :
    rtLoop mr strat req send attempt (fuel + 1) = ⟨1, [], [], .success r⟩ := by
  simp [rtLoop, bodySetupErr_none req attempt hb0, hok, hlt]

/-- An iteration whose GetBody call fails aborts before any send. -/
lemma rtLoop_bodyReplay (mr : Int) (strat : Nat → Int) (req : Request) (send : Nat → SendResult)
    (attempt fuel : Nat) (e : GoErr)
    (hb : req.hasBody = true) (hg : req.hasGetBody = true)
    (herr : req.getBodyErr attempt = some e) :
    rtLoop mr strat req send attempt (fuel + 1) = ⟨0, [], [], .failure (.bodyReplay e)⟩ := by
  simp [rtLoop, bodySetupErr_some req attempt e hb hg herr]

/-- Advancing over k retryable, cleanly drained attempts below the budget:
k sends and the k delays strategy(attempt), ..., strategy(attempt+k-1) are
accumulated and the run continues at attempt + k. -/
lemma rtLoop_advance (mr : Int) (strat : Nat → Int) (req : Request) (send : Nat → SendResult) :
    ∀ (k attempt fuel : Nat),
      (∀ i, attempt ≤ i → i < attempt + k → req.getBodyErr i = none) →
      (∀ i, attempt ≤ i → i < attempt + k → retryableClean (send i)) →
      ((attempt : Int) + k ≤ mr) →
      (rtLoop mr strat req send attempt (k + fuel)).sends
          = k + (rtLoop mr strat req send (attempt + k) fuel).sends ∧
      (rtLoop mr strat req send attempt (k + fuel)).delays
          = ((List.range k).map fun j => strat (attempt + j))
              ++ (rtLoop mr strat req send (attempt + k) fuel).delays ∧
      (rtLoop mr strat req send attempt (k + fuel)).outcome
          = (rtLoop mr strat req send (attempt + k) fuel).outcome := by
  intro k
  induction k with
  | zero => intro attempt fuel _ _ _; simp
  | succ n ih =>
    intro attempt fuel hbody hret hle
    have hb0 : req.getBodyErr attempt = none := hbody attempt le_rfl (by omega)
    have hr0 : retryableClean (send attempt) := hret attempt le_rfl (by omega)
    have hle' : (attempt : Int) + n + 1 ≤ mr := by push_cast at hle; omega
    have hlt : (attempt : Int) < mr := by omega
    have harr : n + 1 + fuel = (n + fuel) + 1 := by omega
    rw [harr]
    obtain ⟨Ss, Sd, So⟩ := rtLoop_step mr strat req send attempt (n + fuel) hb0 hr0 hlt
    have IH := ih (attempt + 1) fuel
      (fun i h1 h2 => hbody i (by omega) (by omega))
      (fun i h1 h2 => hret i (by omega) (by omega))
      (by push_cast; omega)
    have hidx : attempt + 1 + n = attempt + (n + 1) := by omega
    rw [hidx] at IH
    obtain ⟨IHs, IHd, IHo⟩ := IH
    refine ⟨?_, ?_, ?_⟩
    · rw [Ss, IHs]; omega
    · rw [Sd, IHd, range_map_shift strat attempt n]; rfl
    · rw [So, IHo]

/-- A response returned by the loop always has status below 500. -/
lemma rtLoop_success_lt500 (mr : Int) (strat : Nat → Int) (req : Request)
    (send : Nat → SendResult) :
    ∀ (fuel attempt : Nat) (r : Response),
      (rtLoop mr strat req send attempt fuel).outcome = .success r →
      r.statusCode < 500 := by
  intro fuel
  induction fuel with
  | zero => intro attempt r h; simp [rtLoop] at h
  | succ n ih =>
    intro attempt r h
    cases hgb : bodySetupErr req attempt with
    | some e => simp [rtLoop, hgb] at h
    | none =>
      cases hsend : send attempt with
      | fail e =>
        by_cases hlt : (attempt : Int) < mr
        · simp [rtLoop, hgb, hsend, hlt] at h
          exact ih (attempt + 1) r h
        · simp [rtLoop, hgb, hsend, hlt] at h
      | ok resp =>
        by_cases hst : resp.statusCode < 500
        · simp [rtLoop, hgb, hsend, hst] at h
          subst h
          omega
        · cases hdr : resp.drainErr with
          | some e => simp [rtLoop, hgb, hsend, hst, hdr] at h
          | none =>
            cases hcl : resp.closeErr with
            | some e => simp [rtLoop, hgb, hsend, hst, hdr, hcl] at h
            | none =>
              by_cases hlt : (attempt : Int) < mr
              · simp [rtLoop, hgb, hsend, hst, hdr, hcl, hlt] at h
                exact ih (attempt + 1) r h
              · simp [rtLoop, hgb, hsend, hst, hdr, hcl, hlt] at h

/-- Step equation: GetBody failure aborts the iteration before the send. -/
lemma rtLoop_eq_bodyReplay (mr : Int) (strat : Nat → Int) (req : Request)
    (send : Nat → SendResult) (attempt fuel : Nat) (e : GoErr)
    (hgb : bodySetupErr req attempt = some e) :
    rtLoop mr strat req send attempt (fuel + 1) = ⟨0, [], [], .failure (.bodyReplay e)⟩ := by
  simp [rtLoop, hgb]

/-- Step equation: a send with status below 500 returns at once. -/
lemma rtLoop_eq_success (mr : Int) (strat : Nat → Int) (req : Request)
    (send : Nat → SendResult) (attempt fuel : Nat) (resp : Response)
    (hgb : bodySetupErr req attempt = none)
    (hsend : send attempt = .ok resp) (hst : resp.statusCode < 500) :
    rtLoop mr strat req send attempt (fuel + 1) = ⟨1, [], [], .success resp⟩ := by
  simp [rtLoop, hgb, hsend, hst]

/-- Step equation: a discarded response whose drain fails aborts the run. -/
lemma rtLoop_eq_drainFail (mr : Int) (strat : Nat → Int) (req : Request)
    (send : Nat → SendResult) (attempt fuel : Nat) (resp : Response) (e : GoErr)
    (hgb : bodySetupErr req attempt = none)
    (hsend : send attempt = .ok resp) (hst : ¬ resp.statusCode < 500)
    (hdr : resp.drainErr = some e) :
    rtLoop mr strat req send attempt (fuel + 1)
      = ⟨1, [], [attempt], .failure (.drainFail e)⟩ := by
  simp [rtLoop, hgb, hsend, hst, hdr]

/-- Step equation: a discarded response whose close fails (drain succeeded)
aborts the run. -/
lemma rtLoop_eq_closeFail (mr : Int) (strat : Nat → Int) (req : Request)
    (send : Nat → SendResult) (attempt fuel : Nat) (resp : Response) (e : GoErr)
    (hgb : bodySetupErr req attempt = none)
    (hsend : send attempt = .ok resp) (hst : ¬ resp.statusCode < 500)
    (hdr : resp.drainErr = none) (hcl : resp.closeErr = some e) :
    rtLoop mr strat req send attempt (fuel + 1)
      = ⟨1, [], [attempt], .failure (.closeFail e)⟩ := by
  simp [rtLoop, hgb, hsend, hst, hdr, hcl]

/-- Step equation: transport error at the last budgeted attempt. -/
lemma rtLoop_eq_lastErr (mr : Int) (strat : Nat → Int) (req : Request)
    (send : Nat → SendResult) (attempt fuel : Nat) (e : GoErr)
    (hgb : bodySetupErr req attempt = none)
    (hsend : send attempt = .fail e) (hmr : ¬ ((attempt : Int) < mr)) :
    rtLoop mr strat req send attempt (fuel + 1) = ⟨1, [], [], .failure (.lastErr e)⟩ := by
  simp [rtLoop, hgb, hsend, hmr]

/-- Step equation: cleanly discarded >= 500 response at the last budgeted
attempt yields the all-retries-failed error with its status. -/
lemma rtLoop_eq_exhausted (mr : Int) (strat : Nat → Int) (req : Request)
    (send : Nat → SendResult) (attempt fuel : Nat) (resp : Response)
    (hgb : bodySetupErr req attempt = none)
    (hsend : send attempt = .ok resp) (hst : ¬ resp.statusCode < 500)
    (hdr : resp.drainErr = none) (hcl : resp.closeErr = none)
    (hmr : ¬ ((attempt : Int) < mr)) :
    rtLoop mr strat req send attempt (fuel + 1)
      = ⟨1, [], [attempt], .failure (.exhaustedWithStatus resp.statusCode)⟩ := by
  simp [rtLoop, hgb, hsend, hst, hdr, hcl, hmr]

/-- Step equation: transport error below the budget continues the loop. -/
lemma rtLoop_eq_contFail (mr : Int) (strat : Nat → Int) (req : Request)
    (send : Nat → SendResult) (attempt fuel : Nat) (e : GoErr)
    (hgb : bodySetupErr req attempt = none)
    (hsend : send attempt = .fail e) (hlt : (attempt : Int) < mr) :
    rtLoop mr strat req send attempt (fuel + 1)
      = ⟨(rtLoop mr strat req send (attempt + 1) fuel).sends + 1,
         strat attempt :: (rtLoop mr strat req send (attempt + 1) fuel).delays,
         (rtLoop mr strat req send (attempt + 1) fuel).cleanups,
         (rtLoop mr strat req send (attempt + 1) fuel).outcome⟩ := by
  simp [rtLoop, hgb, hsend, hlt]

/-- Step equation: cleanly discarded >= 500 response below the budget
records its cleanup and continues the loop. -/
lemma rtLoop_eq_contOk (mr : Int) (strat : Nat → Int) (req : Request)
    (send : Nat → SendResult) (attempt fuel : Nat) (resp : Response)
    (hgb : bodySetupErr req attempt = none)
    (hsend : send attempt = .ok resp) (hst : ¬ resp.statusCode < 500)
    (hdr : resp.drainErr = none) (hcl : resp.closeErr = none)
    (hlt : (attempt : Int) < mr) :
    rtLoop mr strat req send attempt (fuel + 1)
      = ⟨(rtLoop mr strat req send (attempt + 1) fuel).sends + 1,
         strat attempt :: (rtLoop mr strat req send (attempt + 1) fuel).delays,
         attempt :: (rtLoop mr strat req send (attempt + 1) fuel).cleanups,
         (rtLoop mr strat req send (attempt + 1) fuel).outcome⟩ := by
  simp [rtLoop, hgb, hsend, hst, hdr, hcl, hlt]

/-- A returned response came from the run's last physical send. -/
lemma rtLoop_success_last (mr : Int) (strat : Nat → Int) (req : Request)
    (send : Nat → SendResult) :
    ∀ (fuel attempt : Nat) (r : Response),
      (rtLoop mr strat req send attempt fuel).outcome = .success r →
      ∃ m, (rtLoop mr strat req send attempt fuel).sends = m + 1 ∧
        send (attempt + m) = .ok r := by
  intro fuel
  induction fuel with
  | zero => intro attempt r h; simp [rtLoop] at h
  | succ n ih =>
    intro attempt r h
    cases hgb : bodySetupErr req attempt with
    | some e =>
      rw [rtLoop_eq_bodyReplay mr strat req send attempt n e hgb] at h
      exact absurd h (by simp)
    | none =>
      cases hsend : send attempt with
      | fail e =>
        by_cases hlt : (attempt : Int) < mr
        · rw [rtLoop_eq_contFail mr strat req send attempt n e hgb hsend hlt] at h ⊢
          obtain ⟨m, hm, hsm⟩ := ih (attempt + 1) r h
          refine ⟨m + 1, ?_, ?_⟩
          · show (rtLoop mr strat req send (attempt + 1) n).sends + 1 = m + 1 + 1
            omega
          · rw [show attempt + (m + 1) = attempt + 1 + m by omega]
            exact hsm
        · rw [rtLoop_eq_lastErr mr strat req send attempt n e hgb hsend hlt] at h
          exact absurd h (by simp)
      | ok resp =>
        by_cases hst : resp.statusCode < 500
        · rw [rtLoop_eq_success mr strat req send attempt n resp hgb hsend hst] at h ⊢
          have hr : resp = r := by
            have h' : RTOutcome.success resp = RTOutcome.success r := h
            injection h'
          refine ⟨0, rfl, ?_⟩
          rw [Nat.add_zero, hsend, hr]
        · cases hdr : resp.drainErr with
          | some e =>
            rw [rtLoop_eq_drainFail mr strat req send attempt n resp e hgb hsend hst hdr] at h
            exact absurd h (by simp)
          | none =>
            cases hcl : resp.closeErr with
            | some e =>
              rw [rtLoop_eq_closeFail mr strat req send attempt n resp e hgb hsend hst hdr hcl] at h
              exact absurd h (by simp)
            | none =>
              by_cases hlt : (attempt : Int) < mr
              · rw [rtLoop_eq_contOk mr strat req send attempt n resp hgb hsend hst hdr hcl hlt] at h ⊢
                obtain ⟨m, hm, hsm⟩ := ih (attempt + 1) r h
                refine ⟨m + 1, ?_, ?_⟩
                · show (rtLoop mr strat req send (attempt + 1) n).sends + 1 = m + 1 + 1
                  omega
                · rw [show attempt + (m + 1) = attempt + 1 + m by omega]
                  exact hsm
              · rw [rtLoop_eq_exhausted mr strat req send attempt n resp hgb hsend hst hdr hcl hlt] at h
                exact absurd h (by simp)

/-- The cleanup events of a run are exactly the sent attempts whose response
had status >= 500, each exactly once, in order. -/
lemma rtLoop_cleanups (mr : Int) (strat : Nat → Int) (req : Request)
    (send : Nat → SendResult) :
    ∀ (fuel attempt : Nat),
      (rtLoop mr strat req send attempt fuel).cleanups
        = ((List.range (rtLoop mr strat req send attempt fuel).sends).map
            (fun j => attempt + j)).filter (discarded send) := by
  intro fuel
  induction fuel with
  | zero => intro attempt; simp [rtLoop]
  | succ n ih =>
    intro attempt
    cases hgb : bodySetupErr req attempt with
    | some e =>
      rw [rtLoop_eq_bodyReplay mr strat req send attempt n e hgb]
      simp
    | none =>
      cases hsend : send attempt with
      | fail e =>
        have hdisc : discarded send attempt = false := by simp [discarded, hsend]
        by_cases hlt : (attempt : Int) < mr
        · rw [rtLoop_eq_contFail mr strat req send attempt n e hgb hsend hlt]
          show (rtLoop mr strat req send (attempt + 1) n).cleanups
              = ((List.range ((rtLoop mr strat req send (attempt + 1) n).sends + 1)).map
                  (fun j => attempt + j)).filter (discarded send)
          rw [range_map_shift_nat, List.filter_cons, ih (attempt + 1)]
          simp [hdisc]
        · rw [rtLoop_eq_lastErr mr strat req send attempt n e hgb hsend hlt]
          show ([] : List Nat)
              = ((List.range 1).map (fun j => attempt + j)).filter (discarded send)
          rw [show List.range 1 = [0] from rfl]
          simp [hdisc]
      | ok resp =>
        by_cases hst : resp.statusCode < 500
        · have hdisc : discarded send attempt = false := by
            simp [discarded, hsend]
            omega
          rw [rtLoop_eq_success mr strat req send attempt n resp hgb hsend hst]
          show ([] : List Nat)
              = ((List.range 1).map (fun j => attempt + j)).filter (discarded send)
          rw [show List.range 1 = [0] from rfl]
          simp [hdisc]
        · have hdisc : discarded send attempt = true := by
            simp [discarded, hsend]
            omega
          cases hdr : resp.drainErr with
          | some e =>
            rw [rtLoop_eq_drainFail mr strat req send attempt n resp e hgb hsend hst hdr]
            show [attempt]
                = ((List.range 1).map (fun j => attempt + j)).filter (discarded send)
            rw [show List.range 1 = [0] from rfl]
            simp [hdisc]
          | none =>
            cases hcl : resp.closeErr with
            | some e =>
              rw [rtLoop_eq_closeFail mr strat req send attempt n resp e hgb hsend hst hdr hcl]
              show [attempt]
                  = ((List.range 1).map (fun j => attempt + j)).filter (discarded send)
              rw [show List.range 1 = [0] from rfl]
              simp [hdisc]
            | none =>
              by_cases hlt : (attempt : Int) < mr
              · rw [rtLoop_eq_contOk mr strat req send attempt n resp hgb hsend hst hdr hcl hlt]
                show attempt :: (rtLoop mr strat req send (attempt + 1) n).cleanups
                    = ((List.range ((rtLoop mr strat req send (attempt + 1) n).sends + 1)).map
                        (fun j => attempt + j)).filter (discarded send)
                rw [range_map_shift_nat, List.filter_cons, ih (attempt + 1)]
                simp [hdisc]
              · rw [rtLoop_eq_exhausted mr strat req send attempt n resp hgb hsend hst hdr hcl hlt]
                show [attempt]
                    = ((List.range 1).map (fun j => attempt + j)).filter (discarded send)
                rw [show List.range 1 = [0] from rfl]
                simp [hdisc]

/-- If a cleaned-up attempt's response had a drain (copy) error, the run
aborted right there with the drain failure, regardless of its close error. -/
lemma rtLoop_drain_abort (mr : Int) (strat : Nat → Int) (req : Request)
    (send : Nat → SendResult) :
    ∀ (fuel attempt i : Nat) (r : Response) (e : GoErr),
      i ∈ (rtLoop mr strat req send attempt fuel).cleanups →
      send i = .ok r → r.drainErr = some e →
      (rtLoop mr strat req send attempt fuel).outcome = .failure (.drainFail e) ∧
      attempt + (rtLoop mr strat req send attempt fuel).sends = i + 1 := by
  intro fuel
  induction fuel with
  | zero => intro attempt i r e hmem _ _; simp [rtLoop] at hmem
  | succ n ih =>
    intro attempt i r e hmem hsend hdr
    cases hgb : bodySetupErr req attempt with
    | some e2 =>
      rw [rtLoop_eq_bodyReplay mr strat req send attempt n e2 hgb] at hmem
      simp at hmem
    | none =>
      cases hsendA : send attempt with
      | fail e2 =>
        by_cases hlt : (attempt : Int) < mr
        · rw [rtLoop_eq_contFail mr strat req send attempt n e2 hgb hsendA hlt] at hmem ⊢
          have hmem2 : i ∈ (rtLoop mr strat req send (attempt + 1) n).cleanups := hmem
          obtain ⟨h1, h2⟩ := ih (attempt + 1) i r e hmem2 hsend hdr
          constructor
          · exact h1
          · show attempt + ((rtLoop mr strat req send (attempt + 1) n).sends + 1) = i + 1
            omega
        · rw [rtLoop_eq_lastErr mr strat req send attempt n e2 hgb hsendA hlt] at hmem
          simp at hmem
      | ok resp =>
        by_cases hst : resp.statusCode < 500
        · rw [rtLoop_eq_success mr strat req send attempt n resp hgb hsendA hst] at hmem
          simp at hmem
        · cases hdrA : resp.drainErr with
          | some e2 =>
            rw [rtLoop_eq_drainFail mr strat req send attempt n resp e2 hgb hsendA hst hdrA] at hmem ⊢
            have hi : i = attempt := by simpa using hmem
            subst hi
            rw [hsendA] at hsend
            injection hsend with hr
            subst hr
            rw [hdrA] at hdr
            injection hdr with he
            subst he
            exact ⟨rfl, rfl⟩
          | none =>
            cases hclA : resp.closeErr with
            | some e2 =>
              rw [rtLoop_eq_closeFail mr strat req send attempt n resp e2
                    hgb hsendA hst hdrA hclA] at hmem
              have hi : i = attempt := by simpa using hmem
              subst hi
              rw [hsendA] at hsend
              injection hsend with hr
              subst hr
              rw [hdrA] at hdr
              exact Option.noConfusion hdr
            | none =>
              by_cases hlt : (attempt : Int) < mr
              · rw [rtLoop_eq_contOk mr strat req send attempt n resp
                      hgb hsendA hst hdrA hclA hlt] at hmem ⊢
                have hmem2 : i ∈ attempt :: (rtLoop mr strat req send (attempt + 1) n).cleanups :=
                  hmem
                rcases List.mem_cons.mp hmem2 with hi | htail
                · subst hi
                  rw [hsendA] at hsend
                  injection hsend with hr
                  subst hr
                  rw [hdrA] at hdr
                  exact Option.noConfusion hdr
                · obtain ⟨h1, h2⟩ := ih (attempt + 1) i r e htail hsend hdr
                  constructor
                  · exact h1
                  · show attempt + ((rtLoop mr strat req send (attempt + 1) n).sends + 1) = i + 1
                    omega
              · rw [rtLoop_eq_exhausted mr strat req send attempt n resp
                      hgb hsendA hst hdrA hclA hlt] at hmem
                have hi : i = attempt := by simpa using hmem
                subst hi
                rw [hsendA] at hsend
                injection hsend with hr
                subst hr
                rw [hdrA] at hdr
                exact Option.noConfusion hdr

/-- If a cleaned-up attempt's response drained cleanly but failed to close,
the run aborted right there with the close failure. -/
lemma rtLoop_close_abort (mr : Int) (strat : Nat → Int) (req : Request)
    (send : Nat → SendResult) :
    ∀ (fuel attempt i : Nat) (r : Response) (e : GoErr),
      i ∈ (rtLoop mr strat req send attempt fuel).cleanups →
      send i = .ok r → r.drainErr = none → r.closeErr = some e →
      (rtLoop mr strat req send attempt fuel).outcome = .failure (.closeFail e) ∧
      attempt + (rtLoop mr strat req send attempt fuel).sends = i + 1 := by
  intro fuel
  induction fuel with
  | zero => intro attempt i r e hmem _ _ _; simp [rtLoop] at hmem
  | succ n ih =>
    intro attempt i r e hmem hsend hdr hcle
    cases hgb : bodySetupErr req attempt with
    | some e2 =>
      rw [rtLoop_eq_bodyReplay mr strat req send attempt n e2 hgb] at hmem
      simp at hmem
    | none =>
      cases hsendA : send attempt with
      | fail e2 =>
        by_cases hlt : (attempt : Int) < mr
        · rw [rtLoop_eq_contFail mr strat req send attempt n e2 hgb hsendA hlt] at hmem ⊢
          have hmem2 : i ∈ (rtLoop mr strat req send (attempt + 1) n).cleanups := hmem
          obtain ⟨h1, h2⟩ := ih (attempt + 1) i r e hmem2 hsend hdr hcle
          constructor
          · exact h1
          · show attempt + ((rtLoop mr strat req send (attempt + 1) n).sends + 1) = i + 1
            omega
        · rw [rtLoop_eq_lastErr mr strat req send attempt n e2 hgb hsendA hlt] at hmem
          simp at hmem
      | ok resp =>
        by_cases hst : resp.statusCode < 500
        · rw [rtLoop_eq_success mr strat req send attempt n resp hgb hsendA hst] at hmem
          simp at hmem
        · cases hdrA : resp.drainErr with
          | some e2 =>
            rw [rtLoop_eq_drainFail mr strat req send attempt n resp e2
                  hgb hsendA hst hdrA] at hmem
            have hi : i = attempt := by simpa using hmem
            subst hi
            rw [hsendA] at hsend
            injection hsend with hr
            subst hr
            rw [hdrA] at hdr
            exact Option.noConfusion hdr
          | none =>
            cases hclA : resp.closeErr with
            | some e2 =>
              rw [rtLoop_eq_closeFail mr strat req send attempt n resp e2
                    hgb hsendA hst hdrA hclA] at hmem ⊢
              have hi : i = attempt := by simpa using hmem
              subst hi
              rw [hsendA] at hsend
              injection hsend with hr
              subst hr
              rw [hclA] at hcle
              injection hcle with he
              subst he
              exact ⟨rfl, rfl⟩
            | none =>
              by_cases hlt : (attempt : Int) < mr
              · rw [rtLoop_eq_contOk mr strat req send attempt n resp
                      hgb hsendA hst hdrA hclA hlt] at hmem ⊢
                have hmem2 : i ∈ attempt :: (rtLoop mr strat req send (attempt + 1) n).cleanups :=
                  hmem
                rcases List.mem_cons.mp hmem2 with hi | htail
                · subst hi
                  rw [hsendA] at hsend
                  injection hsend with hr
                  subst hr
                  rw [hclA] at hcle
                  exact Option.noConfusion hcle
                · obtain ⟨h1, h2⟩ := ih (attempt + 1) i r e htail hsend hdr hcle
                  constructor
                  · exact h1
                  · show attempt + ((rtLoop mr strat req send (attempt + 1) n).sends + 1) = i + 1
                    omega
              · rw [rtLoop_eq_exhausted mr strat req send attempt n resp
                      hgb hsendA hst hdrA hclA hlt] at hmem
                have hi : i = attempt := by simpa using hmem
                subst hi
                rw [hsendA] at hsend
                injection hsend with hr
                subst hr
                rw [hclA] at hcle
                exact Option.noConfusion hcle

/-- Without the rewind capability the GetBody oracle is never consulted:
runs with different GetBody outcomes coincide. -/
lemma rtLoop_no_rewind (mr : Int) (strat : Nat → Int) (send : Nat → SendResult)
    (b g : Bool) (f f2 : Nat → Option GoErr) (h : (b && g) = false) :
    ∀ (fuel attempt : Nat),
      rtLoop mr strat ⟨b, g, f⟩ send attempt fuel
        = rtLoop mr strat ⟨b, g, f2⟩ send attempt fuel := by
  intro fuel
  induction fuel with
  | zero => intro attempt; rfl
  | succ n ih =>
    intro attempt
    have h1 : bodySetupErr ⟨b, g, f⟩ attempt = none := by simp [bodySetupErr, h]
    have h2 : bodySetupErr ⟨b, g, f2⟩ attempt = none := by simp [bodySetupErr, h]
    cases hsend : send attempt with
    | fail e =>
      by_cases hlt : (attempt : Int) < mr
      · rw [rtLoop_eq_contFail mr strat ⟨b, g, f⟩ send attempt n e h1 hsend hlt,
            rtLoop_eq_contFail mr strat ⟨b, g, f2⟩ send attempt n e h2 hsend hlt,
            ih (attempt + 1)]
      · rw [rtLoop_eq_lastErr mr strat ⟨b, g, f⟩ send attempt n e h1 hsend hlt,
            rtLoop_eq_lastErr mr strat ⟨b, g, f2⟩ send attempt n e h2 hsend hlt]
    | ok resp =>
      by_cases hst : resp.statusCode < 500
      · rw [rtLoop_eq_success mr strat ⟨b, g, f⟩ send attempt n resp h1 hsend hst,
            rtLoop_eq_success mr strat ⟨b, g, f2⟩ send attempt n resp h2 hsend hst]
      · cases hdr : resp.drainErr with
        | some e =>
          rw [rtLoop_eq_drainFail mr strat ⟨b, g, f⟩ send attempt n resp e h1 hsend hst hdr,
              rtLoop_eq_drainFail mr strat ⟨b, g, f2⟩ send attempt n resp e h2 hsend hst hdr]
        | none =>
          cases hcl : resp.closeErr with
          | some e =>
            rw [rtLoop_eq_closeFail mr strat ⟨b, g, f⟩ send attempt n resp e h1 hsend hst hdr hcl,
                rtLoop_eq_closeFail mr strat ⟨b, g, f2⟩ send attempt n resp e h2 hsend hst hdr hcl]
          | none =>
            by_cases hlt : (attempt : Int) < mr
            · rw [rtLoop_eq_contOk mr strat ⟨b, g, f⟩ send attempt n resp h1 hsend hst hdr hcl hlt,
                  rtLoop_eq_contOk mr strat ⟨b, g, f2⟩ send attempt n resp h2 hsend hst hdr hcl hlt,
                  ih (attempt + 1)]
            · rw [rtLoop_eq_exhausted mr strat ⟨b, g, f⟩ send attempt n resp h1 hsend hst hdr hcl hlt,
                  rtLoop_eq_exhausted mr strat ⟨b, g, f2⟩ send attempt n resp h2 hsend hst hdr hcl hlt]

/-- RoundTrip is the retry loop started at attempt 0 with MaxRetries + 1
available iterations. -/
lemma roundTrip_unfold (mr : Int) (strat : Nat → Int) (req : Request)
    (send : Nat → SendResult) :
    roundTrip ⟨mr, strat⟩ req send = rtLoop mr strat req send 0 (mr + 1).toNat := rfl

/-- With MaxRetries = N, retryable cleanly-drained outcomes on attempts
0..N-1 and GetBody never failing, the run makes N + 1 sends, waits the N
strategy delays in order, and ends with the terminal error determined by the
last send. -/
lemma roundTrip_exhaust_components (N : Nat) (strat : Nat → Int) (req : Request)
    (send : Nat → SendResult)
    (hbody : ∀ i, i ≤ N → req.getBodyErr i = none)
    (hret : ∀ i, i < N → retryableClean (send i))
    (hlast : retryableClean (send N)) :
    (roundTrip ⟨(N : Int), strat⟩ req send).sends = N + 1 ∧
    (roundTrip ⟨(N : Int), strat⟩ req send).delays = (List.range N).map strat ∧
    (roundTrip ⟨(N : Int), strat⟩ req send).outcome
      = .failure (match send N with
          | .fail e => .lastErr e
          | .ok r => .exhaustedWithStatus r.statusCode) := by
  have hfuel : ((N : Int) + 1).toNat = N + 1 := by omega
  have hadv := rtLoop_advance (N : Int) strat req send N 0 1
    (fun i h1 h2 => hbody i (by omega))
    (fun i h1 h2 => hret i (by omega))
    (by push_cast; omega)
  simp only [Nat.zero_add] at hadv
  have hl := rtLoop_last (N : Int) strat req send N 0 (hbody N le_rfl) hlast (by omega)
  have hl1 : (rtLoop (N : Int) strat req send N 1).sends = 1 := hl.1
  have hl2 : (rtLoop (N : Int) strat req send N 1).delays = [] := hl.2.1
  have hl3 : (rtLoop (N : Int) strat req send N 1).outcome
      = .failure (match send N with
          | .fail e => .lastErr e
          | .ok r => .exhaustedWithStatus r.statusCode) := hl.2.2
  refine ⟨?_, ?_, ?_⟩
  · rw [roundTrip_unfold, hfuel, hadv.1, hl1]
  · rw [roundTrip_unfold, hfuel, hadv.2.1, hl2]
    simp
  · rw [roundTrip_unfold, hfuel, hadv.2.2, hl3]

/-- C1 (amended): with maxRetries = N >= 0, every physical send retryable
(transport error or status >= 500) with clean drains/closes and GetBody never
failing, RoundTrip makes exactly N + 1 sends and N delay waits with
delay = strategy(attempt) for attempts 0..N-1, and returns the terminal
error of the last attempt: the all-retries-failed error carrying the last
status code when the last attempt produced a response, and the wrapped last
transport error when it did not (the claim's unconditional "carrying the last
observed status code" fails in that case, see the counterexample). -/
theorem roundTrip_exhaustion (N : Nat) (strat : Nat → Int) (req : Request)
    (send : Nat → SendResult)
    (hbody : ∀ i, i ≤ N → req.getBodyErr i = none)
    (hret : ∀ i, i ≤ N → retryableClean (send i)) :
    (roundTrip ⟨(N : Int), strat⟩ req send).sends = N + 1 ∧
    (roundTrip ⟨(N : Int), strat⟩ req send).delays = (List.range N).map strat ∧
    (roundTrip ⟨(N : Int), strat⟩ req send).outcome
      = .failure (match send N with
          | .fail e => .lastErr e
          | .ok r => .exhaustedWithStatus r.statusCode) :=
  roundTrip_exhaust_components N strat req send hbody
    (fun i hi => hret i (by omega)) (hret N le_rfl)

/-- C1 as stated is false: with maxRetries = 1, a 500 response on attempt 0
and a transport error on attempt 1 (all retryable), the terminal error wraps
the transport error and carries no status code, although 500 was the last
observed status. -/
theorem roundTrip_exhaustion_cex :
    (roundTrip ⟨(1 : Int), fun _ => 7⟩ ⟨false, false, fun _ => none⟩
        (fun i => if i = 0 then .ok ⟨500, none, none⟩ else .fail ⟨5⟩)).outcome
      = .failure (.lastErr ⟨5⟩) ∧
    (match (roundTrip ⟨(1 : Int), fun _ => 7⟩ ⟨false, false, fun _ => none⟩
        (fun i => if i = 0 then .ok ⟨500, none, none⟩ else .fail ⟨5⟩)).outcome with
      | .failure (.exhaustedWithStatus _) => False
      | _ => True) :=
  ⟨by decide, True.intro⟩

/-- Witness for C1 (amended): maxRetries 1, every send a clean 500. -/
theorem roundTrip_exhaustion_witness :
    (roundTrip ⟨(1 : Int), fun _ => 7⟩ ⟨false, false, fun _ => none⟩
        (fun _ => .ok ⟨500, none, none⟩)).sends = 2 ∧
    (roundTrip ⟨(1 : Int), fun _ => 7⟩ ⟨false, false, fun _ => none⟩
        (fun _ => .ok ⟨500, none, none⟩)).delays = [7] ∧
    (roundTrip ⟨(1 : Int), fun _ => 7⟩ ⟨false, false, fun _ => none⟩
        (fun _ => .ok ⟨500, none, none⟩)).outcome
      = .failure (.exhaustedWithStatus 500) := by
  have h := roundTrip_exhaustion 1 (fun _ => 7) ⟨false, false, fun _ => none⟩
    (fun _ => .ok ⟨500, none, none⟩) (fun i _ => rfl)
    (fun i _ => by
      show retryableClean (SendResult.ok ⟨500, none, none⟩)
      decide)
  exact ⟨h.1, h.2.1, h.2.2⟩

/-- C2: when the budget is exhausted after a last retryable, cleanly drained
attempt, the terminal error is (i) the wrapped transport error when the last
attempt failed at transport level, and otherwise (ii) the all-retries-failed
error carrying the last response's status; the generic fallback (iii) cannot
arise here because a last attempt exists (it arises only with a negative
MaxRetries, see the C10 theorem). -/
theorem roundTrip_terminal_error_cases (N : Nat) (strat : Nat → Int) (req : Request)
    (send : Nat → SendResult)
    (hbody : ∀ i, i ≤ N → req.getBodyErr i = none)
    (hret : ∀ i, i < N → retryableClean (send i))
    (hlast : retryableClean (send N)) :
    (∀ e, send N = .fail e →
      (roundTrip ⟨(N : Int), strat⟩ req send).outcome = .failure (.lastErr e)) ∧
    (∀ r, send N = .ok r →
      (roundTrip ⟨(N : Int), strat⟩ req send).outcome
        = .failure (.exhaustedWithStatus r.statusCode)) := by
  have h := (roundTrip_exhaust_components N strat req send hbody hret hlast).2.2
  constructor
  · intro e he
    rw [h, he]
  · intro r hr
    rw [h, hr]

/-- Witness for C2: maxRetries 0 and a clean 503 response on the only
attempt yields the all-retries-failed error carrying 503. -/
theorem roundTrip_terminal_error_cases_witness :
    (roundTrip ⟨(0 : Int), fun _ => 7⟩ ⟨false, false, fun _ => none⟩
        (fun _ => .ok ⟨503, none, none⟩)).outcome
      = .failure (.exhaustedWithStatus 503) := by
  have h := roundTrip_terminal_error_cases 0 (fun _ => 7) ⟨false, false, fun _ => none⟩
    (fun _ => .ok ⟨503, none, none⟩) (fun i _ => rfl)
    (fun i hi => absurd hi (Nat.not_lt_zero i)) (by decide)
  exact h.2 ⟨503, none, none⟩ rfl

/-- C3: if attempt k (within the budget, reached after retryable cleanly
drained attempts) gets a response with status below 500, RoundTrip returns
exactly that response with k + 1 sends, only the k earlier delay waits, and
no cleanup of the returned body; and a response with status >= 500 is never
returned as a success, on any run. -/
theorem roundTrip_success_immediate (mr : Int) (strat : Nat → Int) (req : Request)
    (send : Nat → SendResult) (k : Nat) (r : Response)
    (hk : (k : Int) ≤ mr)
    (hbody : ∀ i, i ≤ k → req.getBodyErr i = none)
    (hret : ∀ i, i < k → retryableClean (send i))
    (hok : send k = .ok r) (hlt : r.statusCode < 500) :
    (roundTrip ⟨mr, strat⟩ req send).outcome = .success r ∧
    (roundTrip ⟨mr, strat⟩ req send).sends = k + 1 ∧
    (roundTrip ⟨mr, strat⟩ req send).delays = (List.range k).map strat ∧
    k ∉ (roundTrip ⟨mr, strat⟩ req send).cleanups ∧
    (∀ (mr2 : Int) (s2 : Nat → Int) (req2 : Request) (send2 : Nat → SendResult) (r2 : Response),
      (roundTrip ⟨mr2, s2⟩ req2 send2).outcome = .success r2 → r2.statusCode < 500) := by
  have hsplit : (mr + 1).toNat = k + (((mr + 1).toNat - k - 1) + 1) := by omega
  have hadv := rtLoop_advance mr strat req send k 0 (((mr + 1).toNat - k - 1) + 1)
    (fun i h1 h2 => hbody i (by omega))
    (fun i h1 h2 => hret i (by omega))
    (by push_cast; omega)
  simp only [Nat.zero_add] at hadv
  have hsucc := rtLoop_eq_success mr strat req send k ((mr + 1).toNat - k - 1) r
    (bodySetupErr_none req k (hbody k le_rfl)) hok hlt
  refine ⟨?_, ?_, ?_, ?_, ?_⟩
  · rw [roundTrip_unfold, hsplit, hadv.2.2, hsucc]
  · rw [roundTrip_unfold, hsplit, hadv.1, hsucc]
  · rw [roundTrip_unfold, hsplit, hadv.2.1, hsucc]
    simp
  · rw [roundTrip_unfold]
    intro hmem
    rw [rtLoop_cleanups] at hmem
    have hdisc : discarded send k = false := by
      simp [discarded, hok]
      omega
    simp [List.mem_filter, hdisc] at hmem
  · intro mr2 s2 req2 send2 r2 h
    rw [roundTrip_unfold] at h
    exact rtLoop_success_lt500 mr2 s2 req2 send2 _ 0 r2 h

/-- Witness for C3: a 502 on attempt 0 then a 200 on attempt 1, budget 3. -/
theorem roundTrip_success_immediate_witness :
    (roundTrip ⟨(3 : Int), fun _ => 5⟩ ⟨false, false, fun _ => none⟩
        (fun i => if i = 0 then .ok ⟨502, none, none⟩ else .ok ⟨200, none, none⟩)).outcome
      = .success ⟨200, none, none⟩ ∧
    (roundTrip ⟨(3 : Int), fun _ => 5⟩ ⟨false, false, fun _ => none⟩
        (fun i => if i = 0 then .ok ⟨502, none, none⟩ else .ok ⟨200, none, none⟩)).sends
      = 2 := by
  have h := roundTrip_success_immediate 3 (fun _ => 5) ⟨false, false, fun _ => none⟩
    (fun i => if i = 0 then .ok ⟨502, none, none⟩ else .ok ⟨200, none, none⟩)
    1 ⟨200, none, none⟩ (by decide) (fun i _ => rfl)
    (fun i hi => by
      have h0 : i = 0 := by omega
      subst h0
      show retryableClean (SendResult.ok ⟨502, none, none⟩)
      decide)
    rfl (by decide)
  exact ⟨h.1, h.2.1⟩

/-- C8: in every run, the drained-and-closed attempts are exactly the sent
attempts whose response had status >= 500, each exactly once (the filter of
an index range, hence without duplicates); a drain (copy) failure on such a
response terminates the run right there with the drain error, taking
priority over the close error; a close failure after a clean drain likewise
terminates the run with the close error; and a returned response has status
below 500 and was never drained. -/
theorem roundTrip_body_discipline (mr : Int) (strat : Nat → Int) (req : Request)
    (send : Nat → SendResult) :
    (roundTrip ⟨mr, strat⟩ req send).cleanups
      = (List.range (roundTrip ⟨mr, strat⟩ req send).sends).filter (discarded send) ∧
    (∀ i r e, i ∈ (roundTrip ⟨mr, strat⟩ req send).cleanups → send i = .ok r →
      r.drainErr = some e →
      (roundTrip ⟨mr, strat⟩ req send).outcome = .failure (.drainFail e) ∧
      (roundTrip ⟨mr, strat⟩ req send).sends = i + 1) ∧
    (∀ i r e, i ∈ (roundTrip ⟨mr, strat⟩ req send).cleanups → send i = .ok r →
      r.drainErr = none → r.closeErr = some e →
      (roundTrip ⟨mr, strat⟩ req send).outcome = .failure (.closeFail e) ∧
      (roundTrip ⟨mr, strat⟩ req send).sends = i + 1) ∧
    (∀ r, (roundTrip ⟨mr, strat⟩ req send).outcome = .success r →
      r.statusCode < 500 ∧
      ((roundTrip ⟨mr, strat⟩ req send).sends - 1)
        ∉ (roundTrip ⟨mr, strat⟩ req send).cleanups) := by
  refine ⟨?_, ?_, ?_, ?_⟩
  · rw [roundTrip_unfold, rtLoop_cleanups]
    have hid : ((List.range (rtLoop mr strat req send 0 (mr + 1).toNat).sends).map
        fun j => 0 + j) = List.range (rtLoop mr strat req send 0 (mr + 1).toNat).sends := by
      simp
    rw [hid]
  · intro i r e hmem hs hd
    rw [roundTrip_unfold] at hmem ⊢
    obtain ⟨h1, h2⟩ := rtLoop_drain_abort mr strat req send ((mr + 1).toNat) 0 i r e hmem hs hd
    exact ⟨h1, by omega⟩
  · intro i r e hmem hs hd hc
    rw [roundTrip_unfold] at hmem ⊢
    obtain ⟨h1, h2⟩ :=
      rtLoop_close_abort mr strat req send ((mr + 1).toNat) 0 i r e hmem hs hd hc
    exact ⟨h1, by omega⟩
  · intro r hsuc
    rw [roundTrip_unfold] at hsuc ⊢
    refine ⟨rtLoop_success_lt500 mr strat req send _ 0 r hsuc, ?_⟩
    obtain ⟨m, hm, hsm⟩ := rtLoop_success_last mr strat req send _ 0 r hsuc
    rw [Nat.zero_add] at hsm
    intro hmem
    have hms : (rtLoop mr strat req send 0 (mr + 1).toNat).sends - 1 = m := by omega
    rw [hms, rtLoop_cleanups] at hmem
    have hdisc : discarded send m = false := by
      simp [discarded, hsm]
      exact rtLoop_success_lt500 mr strat req send _ 0 r hsuc
    simp [List.mem_filter, hdisc] at hmem

/-- Witness for C8: with a drain error on the discarded 500 of attempt 1,
the run stops at attempt 1 with the drain failure. -/
theorem roundTrip_body_discipline_witness :
    (roundTrip ⟨(2 : Int), fun _ => 7⟩ ⟨false, false, fun _ => none⟩
        (fun i => .ok ⟨500, if i = 1 then some ⟨3⟩ else none, none⟩)).outcome
      = .failure (.drainFail ⟨3⟩) ∧
    (roundTrip ⟨(2 : Int), fun _ => 7⟩ ⟨false, false, fun _ => none⟩
        (fun i => .ok ⟨500, if i = 1 then some ⟨3⟩ else none, none⟩)).sends = 2 := by
  have h := roundTrip_body_discipline 2 (fun _ => 7) ⟨false, false, fun _ => none⟩
    (fun i => .ok ⟨500, if i = 1 then some ⟨3⟩ else none, none⟩)
  exact h.2.1 1 ⟨500, some ⟨3⟩, none⟩ ⟨3⟩ (by decide) rfl rfl

/-- C9: if the request carries the rewind capability and GetBody fails on
attempt k (reached after retryable cleanly drained attempts within the
budget), RoundTrip aborts at once with the body-replay error, no send
happening on attempt k or later; and without the capability the GetBody
outcomes are irrelevant: the whole run is unchanged by replacing them. -/
theorem roundTrip_body_replay (mr : Int) (strat : Nat → Int) (req : Request)
    (send : Nat → SendResult) (k : Nat) (e : GoErr)
    (hk : (k : Int) ≤ mr)
    (hbody : ∀ i, i < k → req.getBodyErr i = none)
    (hret : ∀ i, i < k → retryableClean (send i))
    (hb : req.hasBody = true) (hg : req.hasGetBody = true)
    (herr : req.getBodyErr k = some e) :
    ((roundTrip ⟨mr, strat⟩ req send).outcome = .failure (.bodyReplay e) ∧
     (roundTrip ⟨mr, strat⟩ req send).sends = k ∧
     (roundTrip ⟨mr, strat⟩ req send).delays = (List.range k).map strat) ∧
    (∀ (req2 : Request) (g2 : Nat → Option GoErr),
      (req2.hasBody && req2.hasGetBody) = false →
      roundTrip ⟨mr, strat⟩ req2 send
        = roundTrip ⟨mr, strat⟩ ⟨req2.hasBody, req2.hasGetBody, g2⟩ send) := by
  constructor
  · have hsplit : (mr + 1).toNat = k + (((mr + 1).toNat - k - 1) + 1) := by omega
    have hadv := rtLoop_advance mr strat req send k 0 (((mr + 1).toNat - k - 1) + 1)
      (fun i h1 h2 => hbody i (by omega))
      (fun i h1 h2 => hret i (by omega))
      (by push_cast; omega)
    simp only [Nat.zero_add] at hadv
    have habort := rtLoop_eq_bodyReplay mr strat req send k ((mr + 1).toNat - k - 1) e
      (bodySetupErr_some req k e hb hg herr)
    refine ⟨?_, ?_, ?_⟩
    · rw [roundTrip_unfold, hsplit, hadv.2.2, habort]
    · rw [roundTrip_unfold, hsplit, hadv.1, habort]
      rfl
    · rw [roundTrip_unfold, hsplit, hadv.2.1, habort]
      simp
  · intro req2 g2 hng
    rw [roundTrip_unfold, roundTrip_unfold]
    exact rtLoop_no_rewind mr strat send req2.hasBody req2.hasGetBody req2.getBodyErr g2 hng
      ((mr + 1).toNat) 0

/-- Witness for C9: GetBody fails on attempt 1 after one clean 500, so the
run aborts with the body-replay error after a single send. -/
theorem roundTrip_body_replay_witness :
    (roundTrip ⟨(3 : Int), fun _ => 7⟩
        ⟨true, true, fun i => if i = 1 then some ⟨9⟩ else none⟩
        (fun _ => .ok ⟨500, none, none⟩)).outcome = .failure (.bodyReplay ⟨9⟩) ∧
    (roundTrip ⟨(3 : Int), fun _ => 7⟩
        ⟨true, true, fun i => if i = 1 then some ⟨9⟩ else none⟩
        (fun _ => .ok ⟨500, none, none⟩)).sends = 1 := by
  have h := roundTrip_body_replay 3 (fun _ => 7)
    ⟨true, true, fun i => if i = 1 then some ⟨9⟩ else none⟩
    (fun _ => .ok ⟨500, none, none⟩) 1 ⟨9⟩ (by decide)
    (fun i hi => by
      have h0 : i = 0 := by omega
      subst h0
      rfl)
    (fun i hi => by
      have h0 : i = 0 := by omega
      subst h0
      show retryableClean (SendResult.ok ⟨500, none, none⟩)
      decide)
    rfl rfl rfl
  exact ⟨h.1.1, h.1.2.1⟩

/-- C10: a negative MaxRetries makes RoundTrip skip the loop entirely:
no send, no delay wait, no cleanup, and the generic all-retries-failed
error. -/
theorem roundTrip_negative_maxRetries (mr : Int) (strat : Nat → Int) (req : Request)
    (send : Nat → SendResult) (h : mr < 0) :
    roundTrip ⟨mr, strat⟩ req send = ⟨0, [], [], .failure .exhaustedGeneric⟩ := by
  rw [roundTrip_unfold]
  have h0 : (mr + 1).toNat = 0 := by omega
  rw [h0]
  rfl

/-- Witness for C10 at MaxRetries = -1. -/
theorem roundTrip_negative_maxRetries_witness :
    roundTrip ⟨(-1 : Int), fun _ => 0⟩ ⟨false, false, fun _ => none⟩ (fun _ => .fail ⟨0⟩)
      = ⟨0, [], [], .failure .exhaustedGeneric⟩ :=
  roundTrip_negative_maxRetries (-1) (fun _ => 0) ⟨false, false, fun _ => none⟩
    (fun _ => .fail ⟨0⟩) (by decide)
